import Mathlib

/-
Verification of the Reachy Mini countdown coordination loop.

The definitions below are a shallow embedding of:
  - the run loop of ReachyMiniCountdown.run in
    src/reachy_mini_countdown/main.py (the packaged variant, which carries
    the last-spoken tracker; the root variant src/main.py is identical
    except that it lacks the tracker and sleeps a full second per
    final-ten tick),
  - the celebration and final-minute choreography of src/main.py
    (ReachyMiniCountdown._celebrate and _final_minute), modelled against
    a fallible pose sink,
  - the countdown read endpoint get_countdown, identical in both variants.

Wall-clock timestamps and durations are modelled as rational numbers,
so the timing logic is exact; Python float floor division (the double
slash operator) and modulo with a positive divisor are modelled by the
integer floor of the rational quotient, which agrees with the float
computation whenever the floats are exact.  The shared dictionaries
countdown_state and control_state become record fields; a missing
dictionary key becomes an Option none.
-/

namespace ReachyMiniCountdown

/-- A control action held in the single-slot mailbox field action of
control_state: the Python strings start, stop and reset.  The Python
value None becomes Option.none. -/
inductive CAction
  | start
  | stop
  | reset
deriving DecidableEq, Repr

/-- Control position of the run method between two ticks:
awaitingStart is the initial wait-for-start loop (lines 74-90 of the
packaged variant) and the identical post-stop wait loop (lines 104-120);
awaitingCeleb is the post-celebration wait loop (lines 144-155), which
checks only for a start action; counting is the main countdown loop;
halted is the state after the break taken under the once flag. -/
inductive Phase
  | awaitingStart
  | awaitingCeleb
  | counting
  | halted
deriving DecidableEq, Repr

/-- Side effects a tick can issue through the pose and audio sinks:
a reset pose (self._reset_pose), the celebration routine, one
final-ten announcement with its antenna flip (self._final_ten n),
one final-minute pose update (self._final_minute n), and one idle sway
 (the pose refresh plus self._waiting_idle). -/
inductive Effect
  | resetPose
  | celebrate
  | finalTen (n : ℤ)
  | finalMinute (n : ℤ)
  | idlePose
deriving DecidableEq, Repr

/-- The state carried by the run loop across ticks: the local variable
target (absolute timestamp of the countdown end), the attribute
self._last_spoken, the shared control_state fields action, seconds and
running, and the shared countdown_state fields remaining and target
(cdRemaining and cdTarget; the published target string is modelled by
the timestamp it prints). -/
structure LoopState where
  phase : Phase
  target : ℚ
  lastSpoken : ℤ
  action : Option CAction
  seconds : Option ℚ
  running : Bool
  cdRemaining : ℚ
  cdTarget : ℚ
deriving DecidableEq, Repr

/-- Initial state: main() creates countdown_state with remaining 0 and
an empty target string (modelled as timestamp 0), and control_state
with action None, running False and seconds 30; run() sets
self._last_spoken to -1 before the wait loop, and the local target is
not yet assigned (placeholder 0, unread while awaiting start). -/
def initState : LoopState where
  phase := .awaitingStart
  target := 0
  lastSpoken := -1
  action := none
  seconds := some 30
  running := false
  cdRemaining := 0
  cdTarget := 0

/-- Consumption of a start action at time t, as performed identically by
all three wait loops and modelled on lines 77-84 of the packaged
variant: read seconds with default 30, set target to now plus seconds,
clear the action slot, set running, clear the last-spoken tracker, and
enter the counting loop. -/
def startConsume (t : ℚ) (s : LoopState) : LoopState :=
  let sec := s.seconds.getD 30
  { s with
      target := t + sec
      action := none
      running := true
      lastSpoken := -1
      phase := .counting }

/-- One tick of the run loop of the packaged variant at wall-clock time
t, with the once flag as configured at construction.  Each Phase case
follows the corresponding block of ReachyMiniCountdown.run
(src/reachy_mini_countdown/main.py lines 74-176): the wait loops poll
the action slot; the counting loop first consumes a pending stop
(lines 99-121) or reset (lines 122-128), otherwise computes
remaining as target minus now, publishes it together with target to
countdown_state (lines 130-135), and branches on remaining:
at most 0 celebrates (lines 137-156), at most 10 announces the integer
second through the last-spoken guard (lines 158-165), at most 60 runs
the final-minute pose (lines 166-168), and otherwise idles
(lines 169-174). -/
def tick (once : Bool) (t : ℚ) (s : LoopState) : LoopState × List Effect :=
  match s.phase with
  | .awaitingStart =>
    match s.action with
    | some .start => (startConsume t s, [])
    | some .reset =>
        ({ s with action := none, running := false, cdRemaining := 0 },
         [.resetPose])
    | _ => (s, [])
  | .awaitingCeleb =>
    match s.action with
    | some .start => (startConsume t s, [])
    | _ => (s, [])
  | .counting =>
    match s.action with
    | some .stop =>
        ({ s with action := none, running := false, phase := .awaitingStart },
         [.resetPose])
    | some .reset =>
        ({ s with action := none, running := false, cdRemaining := 0,
                  target := t + 30 },
         [.resetPose])
    | _ =>
        let r := s.target - t
        let s' := { s with cdRemaining := r, cdTarget := s.target }
        if r ≤ 0 then
          if once then ({ s' with phase := .halted }, [.celebrate])
          else ({ s' with running := false, phase := .awaitingCeleb },
                [.celebrate])
        else if r ≤ 10 then
          let n := ⌊r⌋
          if 0 < n ∧ n ≠ s.lastSpoken then
            ({ s' with lastSpoken := n }, [.finalTen n])
          else (s', [])
        else if r ≤ 60 then
          (s', [.finalMinute ⌊r⌋])
        else
          (s', [.idlePose])
  | .halted => (s, [])

/-- Iterated ticks at the given list of wall-clock times, collecting the
issued effects in order. -/
def runTicks (once : Bool) (ts : List ℚ) (s : LoopState) :
    LoopState × List Effect :=
  match ts with
  | [] => (s, [])
  | t :: rest =>
      let p := tick once t s
      let q := runTicks once rest p.1
      (q.1, p.2 ++ q.2)

/-- Number of final-ten announcements of the integer n in an effect
trace. -/
def countFT (n : ℤ) (effs : List Effect) : ℕ :=
  effs.countP (fun e => decide (e = Effect.finalTen n))

/-- The numbers announced by the final-ten guard along a list of tick
times against a fixed target T, starting from last-spoken value L: a
tick at time t announces the integer part of T minus t exactly when the
remaining time is within the final ten seconds, the integer part is
positive, and it differs from the last announced value (packaged
variant lines 158-163).  This mirrors the finalTen effects of runTicks
on a counting state and is proved equivalent below. -/
def spokenSeq (T : ℚ) : ℤ → List ℚ → List ℤ
  | _, [] => []
  | L, t :: ts =>
    if T - t ≤ 10 ∧ 0 < ⌊T - t⌋ ∧ ⌊T - t⌋ ≠ L then
      ⌊T - t⌋ :: spokenSeq T ⌊T - t⌋ ts
    else
      spokenSeq T L ts

/-- The action, if any, that a tick from state s would consume (read and
clear): the wait loops consume start and, except after a celebration,
reset; the counting loop consumes stop and reset.  A pending action in
any other combination is left in the mailbox untouched. -/
def consumedAction (s : LoopState) : Option CAction :=
  match s.phase with
  | .awaitingStart =>
    match s.action with
    | some .start => some .start
    | some .reset => some .reset
    | _ => none
  | .awaitingCeleb =>
    match s.action with
    | some .start => some .start
    | _ => none
  | .counting =>
    match s.action with
    | some .stop => some .stop
    | some .reset => some .reset
    | _ => none
  | .halted => none

/-- Write performed by the control surface endpoint /control/start
(packaged variant lines 1179-1192): set action and seconds, and set
running itself. -/
def envStart (sec : ℚ) (s : LoopState) : LoopState :=
  { s with action := some .start, seconds := some sec, running := true }

/-- Write performed by the endpoint /control/stop (lines 1194-1202). -/
def envStop (s : LoopState) : LoopState :=
  { s with action := some .stop, running := false }

/-- Write performed by the endpoint /control/reset (lines 1204-1213):
it also zeroes the published remaining itself. -/
def envReset (s : LoopState) : LoopState :=
  { s with action := some .reset, running := false, cdRemaining := 0 }

/-- States reachable by interleaving run-loop ticks at non-decreasing
wall-clock times with control-surface writes, starting from the state
set up by main().  The index is the current wall-clock time. -/
inductive Reachable (once : Bool) : ℚ → LoopState → Prop
  | init : Reachable once 0 initState
  | step (t t' : ℚ) (s : LoopState) :
      Reachable once t s → t ≤ t' → Reachable once t' (tick once t' s).1
  | ctrlStart (t sec : ℚ) (s : LoopState) :
      Reachable once t s → Reachable once t (envStart sec s)
  | ctrlStop (t : ℚ) (s : LoopState) :
      Reachable once t s → Reachable once t (envStop s)
  | ctrlReset (t : ℚ) (s : LoopState) :
      Reachable once t s → Reachable once t (envReset s)

/-- A head pose as produced by create_head_pose with degrees, reduced to
the three angles the app passes (roll, pitch, yaw; omitted keyword
arguments default to zero). -/
structure HeadPose where
  roll : ℚ
  pitch : ℚ
  yaw : ℚ
deriving DecidableEq, Repr

/-- One goto_target call: an optional head pose, optional antenna pair,
and the nominal duration. -/
structure PoseCmd where
  head : Option HeadPose
  antennas : Option (ℚ × ℚ)
  duration : ℚ
deriving DecidableEq, Repr

/-- A goto_target command moving only the antennas. -/
def antCmd (l r d : ℚ) : PoseCmd where
  head := none
  antennas := some (l, r)
  duration := d

/-- A goto_target command moving only the head. -/
def headCmd (roll pitch yaw d : ℚ) : PoseCmd where
  head := some ⟨roll, pitch, yaw⟩
  antennas := none
  duration := d

/-- The pose sink: a goto_target call either returns or raises (a
timeout or any other exception, collapsed to a single error value). -/
abbrev PoseSink := PoseCmd → Except Unit Unit

/-- Issue a straight-line sequence of goto_target calls with no
exception handler: the commands attempted so far are recorded, and the
first raised exception aborts the rest of the sequence and propagates. -/
def runSeq (sink : PoseSink) : List PoseCmd → List PoseCmd × Except Unit Unit
  | [] => ([], .ok ())
  | c :: cs =>
    match sink c with
    | .ok _ => ((runSeq sink cs).1.cons c, (runSeq sink cs).2)
    | .error e => ([c], .error e)

/-- A try block whose except clause catches TimeoutError and Exception,
prints and continues: whatever happened inside, no exception escapes. -/
def caught (r : List PoseCmd × Except Unit Unit) :
    List PoseCmd × Except Unit Unit :=
  (r.1, .ok ())

/-- Sequential composition of two choreography fragments: the second
runs only if the first did not raise. -/
def seqPose (a b : List PoseCmd × Except Unit Unit) :
    List PoseCmd × Except Unit Unit :=
  match a.2 with
  | .ok _ => (a.1 ++ b.1, b.2)
  | .error e => (a.1, .error e)

/-- The four goto_target calls of one iteration of the initial spin
burst of _celebrate (src/main.py lines 344-357), each iteration wrapped
in its own try block. -/
def spinCmds : List PoseCmd :=
  [antCmd 0.6 (-0.4) 0.4, headCmd 15 (-35) (-20) 0.4,
   antCmd (-0.4) 0.6 0.4, headCmd (-15) (-35) 20 0.4]

/-- The victory pose of _celebrate (src/main.py lines 359-362): two
goto_target calls issued outside any try block. -/
def victoryCmds : List PoseCmd :=
  [antCmd 0.6 0.6 0.2, headCmd 0 (-45) 0 0.3]

/-- The two goto_target calls of dance beat b of the celebration loop
(src/main.py lines 377-385), alternating on the parity of the beat
counter, wrapped in one try block per beat. -/
def danceCmds (b : ℕ) : List PoseCmd :=
  if b % 2 = 0 then
    [antCmd 0.5 (-0.2) 0.4, headCmd 10 (-30) (-15) 0.4]
  else
    [antCmd (-0.2) 0.5 0.4, headCmd (-10) (-30) 15 0.4]

/-- The big move issued every fifth beat (src/main.py lines 391-399),
wrapped in its own try block. -/
def bigMoveCmds : List PoseCmd :=
  [antCmd 0.6 0.6 0.5, headCmd 0 (-40) 0 0.5]

/-- The initial burst of _celebrate: three spin iterations, each in its
own try block. -/
def celebrateSpins (sink : PoseSink) : List PoseCmd × Except Unit Unit :=
  seqPose (caught (runSeq sink spinCmds))
    (seqPose (caught (runSeq sink spinCmds)) (caught (runSeq sink spinCmds)))

/-- The celebration while loop of _celebrate (src/main.py lines 366-399)
run for k iterations, entered with beat counter b; the source loop is
bounded by wall-clock time, modelled here by the iteration count.  Each
iteration increments the beat, runs the dance beat in a try block, and
on every fifth beat the big move in a second try block. -/
def danceLoop (sink : PoseSink) (b : ℕ) : ℕ → List PoseCmd × Except Unit Unit
  | 0 => ([], .ok ())
  | k + 1 =>
    let beatStep := caught (runSeq sink (danceCmds (b + 1)))
    let fullStep :=
      if (b + 1) % 5 = 0 then
        seqPose beatStep (caught (runSeq sink bigMoveCmds))
      else beatStep
    seqPose fullStep (danceLoop sink (b + 1) k)

/-- The pose-command sequence of _celebrate (src/main.py lines 318-401)
against a given sink, with the celebration loop run for k beats: the
spin burst, then the victory pose (not wrapped in any try block), then
the dance loop. -/
def celebrateTrace (sink : PoseSink) (k : ℕ) :
    List PoseCmd × Except Unit Unit :=
  seqPose (celebrateSpins sink)
    (seqPose (runSeq sink victoryCmds) (danceLoop sink 0 k))

/-- The two goto_target calls of _final_minute (src/main.py lines
181-193) for seconds_remaining n: antennas at the interpolated position
and head at the interpolated pitch.  There is no try block anywhere in
_final_minute. -/
def finalMinuteCmds (n : ℤ) : List PoseCmd :=
  let progress : ℚ := 1 - n / 60
  let antennaPos : ℚ := -0.4 + progress * 0.8
  let pitch : ℚ := -30 - progress * 15
  [antCmd antennaPos antennaPos 0.5, headCmd 0 pitch 0 0.5]

/-- The pose-command sequence of _final_minute against a given sink:
a plain unguarded sequence, so any raised exception propagates to the
caller (the run loop). -/
def finalMinuteTrace (sink : PoseSink) (n : ℤ) :
    List PoseCmd × Except Unit Unit :=
  runSeq sink (finalMinuteCmds n)

/-- Python float modulo with a positive divisor b, as used by
get_countdown: the result lies in the interval from 0 inclusive to b
exclusive and equals a minus b times the floor of a over b. -/
def pyMod (a b : ℚ) : ℚ := a - b * ⌊a / b⌋

/-- The hours component computed by get_countdown (both variants,
src/main.py lines 948-962): int(remaining // 3600).  Float floor
division produces the floor of the quotient; int() on that integral
value is exact. -/
def hoursOf (r : ℚ) : ℤ := ⌊r / 3600⌋

/-- The minutes component of get_countdown:
int((remaining % 3600) // 60); the modulo result is non-negative, so
the truncating int() coincides with the floor. -/
def minutesOf (r : ℚ) : ℤ := ⌊pyMod r 3600 / 60⌋

/-- The seconds component of get_countdown: int(remaining % 60); the
modulo result lies in the interval from 0 to 60, so the truncating
int() coincides with the floor. -/
def secondsOf (r : ℚ) : ℤ := ⌊pyMod r 60⌋

/-- Python format specifier 02d: the decimal representation, left
padded with zeros to a minimum width of two characters (the sign
counts toward the width, so any negative value is already wide
enough at this width). -/
def pad2 (n : ℤ) : String :=
  let s := toString n
  if s.length < 2 then "0" ++ s else s

/-- The formatted field of the /countdown response for a published
remaining value r. -/
def formattedOf (r : ℚ) : String :=
  pad2 (hoursOf r) ++ ":" ++ pad2 (minutesOf r) ++ ":" ++ pad2 (secondsOf r)

/-- C2: a tick that consumes a start action carrying duration sec in the
wait-for-start loop sets target to the tick time plus sec, clears the
action slot, sets running, and clears the last-spoken tracker, all in
the same step, and issues no pose effect. -/
theorem start_consumption_step (once : Bool) (t sec : ℚ) (s : LoopState)
    (hph : s.phase = Phase.awaitingStart)
    (ha : s.action = some CAction.start)
    (hs : s.seconds = some sec) :
    tick once t s =
      ({ s with target := t + sec, action := none, running := true,
                lastSpoken := -1, phase := Phase.counting }, []) := by
  cases s
  subst hph ha hs
  rfl

/-- Witness for start_consumption_step at the state written by the start
endpoint with 25 seconds, consumed at time 2. -/
theorem start_consumption_step_witness :
    tick false 2 (envStart 25 initState) =
      ({ envStart 25 initState with
          target := 27, action := none, running := true,
          lastSpoken := -1, phase := Phase.counting }, []) := by
  have h := start_consumption_step false 2 25 (envStart 25 initState)
    rfl rfl rfl
  rw [h]
  norm_num [envStart, initState]

/-- C3: a tick that consumes a stop action while counting clears the
action slot, sets running to false, issues the reset pose and returns to
the wait-for-start loop, whatever the value of remaining (hence in every
sub-state: idle, final minute or final ten). -/
theorem stop_cancels_to_awaiting (once : Bool) (t : ℚ) (s : LoopState)
    (hph : s.phase = Phase.counting)
    (ha : s.action = some CAction.stop) :
    tick once t s =
      ({ s with action := none, running := false,
                phase := Phase.awaitingStart }, [Effect.resetPose]) := by
  cases s
  subst hph ha
  rfl

/-- Witness for stop_cancels_to_awaiting: a running countdown with the
stop endpoint's write pending, stopped at time 3. -/
theorem stop_cancels_to_awaiting_witness :
    tick false 3 (envStop (tick false 0 (envStart 30 initState)).1) =
      ({ envStop (tick false 0 (envStart 30 initState)).1 with
          action := none, running := false,
          phase := Phase.awaitingStart }, [Effect.resetPose]) :=
  stop_cancels_to_awaiting false 3
    (envStop (tick false 0 (envStart 30 initState)).1) rfl rfl

/-- C5: a tick that consumes a reset action while counting re-arms the
countdown: it sets target to the tick time plus the default 30 seconds
and stays in the counting loop (it also clears the action slot, clears
running, zeroes the published remaining and issues the reset pose). -/
theorem reset_while_counting_rearms (once : Bool) (t : ℚ) (s : LoopState)
    (hph : s.phase = Phase.counting)
    (ha : s.action = some CAction.reset) :
    tick once t s =
      ({ s with action := none, running := false, cdRemaining := 0,
                target := t + 30 }, [Effect.resetPose]) ∧
    (tick once t s).1.phase = Phase.counting := by
  cases s
  subst hph ha
  exact ⟨rfl, rfl⟩

/-- Witness for reset_while_counting_rearms: a running countdown with
the reset endpoint's write pending, reset at time 4. -/
theorem reset_while_counting_rearms_witness :
    tick false 4 (envReset (tick false 0 (envStart 30 initState)).1) =
      ({ envReset (tick false 0 (envStart 30 initState)).1 with
          action := none, running := false, cdRemaining := 0,
          target := 34 }, [Effect.resetPose]) := by
  have h := reset_while_counting_rearms false 4
    (envReset (tick false 0 (envStart 30 initState)).1) rfl rfl
  rw [h.1]
  norm_num [envReset, envStart, initState, tick, startConsume]

/-- C9: a tick that consumes a start action while the control-state
record has no seconds entry uses the default duration of 30 seconds
for the new target. -/
theorem start_defaults_to_thirty (once : Bool) (t : ℚ) (s : LoopState)
    (hph : s.phase = Phase.awaitingStart)
    (ha : s.action = some CAction.start)
    (hs : s.seconds = none) :
    tick once t s =
      ({ s with target := t + 30, action := none, running := true,
                lastSpoken := -1, phase := Phase.counting }, []) := by
  cases s
  subst hph ha hs
  rfl

/-- Witness for start_defaults_to_thirty at time 5 from a waiting state
whose control record lacks the seconds key. -/
theorem start_defaults_to_thirty_witness :
    tick false 5
        { initState with action := some CAction.start, seconds := none } =
      ({ initState with
          seconds := none, target := 35, action := none,
          running := true, lastSpoken := -1, phase := Phase.counting },
       []) := by
  have h := start_defaults_to_thirty false 5
    { initState with action := some CAction.start, seconds := none }
    rfl rfl rfl
  rw [h]
  norm_num [initState]

/-- C7 counterexample: a reachable state right after a completed
celebration (run-once off, control state present) in which a reset
action is pending; the next tick neither consumes the action nor issues
any effect, contradicting the claim that reset is handled in the
post-celebration wait-for-start loop.  The post-celebration wait loop
(packaged variant lines 144-155, root variant lines 129-139) checks only
for a start action. -/
theorem post_celebration_reset_ignored :
    ∃ s : LoopState, Reachable false 0 s ∧
      s.phase = Phase.awaitingCeleb ∧ s.action = some CAction.reset ∧
      (tick false 1 s).1.action = some CAction.reset ∧
      (tick false 1 s).2 = [] := by
  refine ⟨envReset (tick false 0 (tick false 0 (envStart (-1) initState)).1).1,
    Reachable.ctrlReset 0 _
      (Reachable.step 0 0 _
        (Reachable.step 0 0 _ (Reachable.ctrlStart 0 (-1) _ Reachable.init)
          le_rfl)
        le_rfl),
    ?_, ?_, ?_, ?_⟩ <;>
  · norm_num [tick, envStart, envReset, initState, startConsume]

/-- C7 amended: after a completed celebration (run-once off, control
state present) the run loop enters a wait loop that handles only start:
a pending start action is consumed exactly as in the initial
wait-for-start loop, while a pending reset action is ignored there (the
action slot is not cleared, no state changes, and no reset pose is
issued). -/
theorem post_celebration_wait_handles_start_only (t : ℚ) (s : LoopState) :
    (s.phase = Phase.counting → s.action = none → s.target - t ≤ 0 →
      (tick false t s).1.phase = Phase.awaitingCeleb ∧
      (tick false t s).1.running = false ∧
      (tick false t s).2 = [Effect.celebrate]) ∧
    (s.phase = Phase.awaitingCeleb → s.action = some CAction.reset →
      tick false t s = (s, [])) ∧
    (s.phase = Phase.awaitingCeleb → s.action = some CAction.start →
      tick false t s = (startConsume t s, [])) := by
  obtain ⟨ph, tg, ls, ac, sec, run, cr, ct⟩ := s
  refine ⟨fun hph ha hr => ?_, fun hph ha => ?_, fun hph ha => ?_⟩ <;>
    subst hph <;> subst ha <;>
    simp_all [tick]

/-- Witness for post_celebration_wait_handles_start_only: the state
reached after an expired countdown celebrates, with a reset action
pending, is left untouched at time 7. -/
theorem post_celebration_wait_witness :
    tick false 7
        { initState with phase := Phase.awaitingCeleb, target := -1,
                         action := some CAction.reset, cdRemaining := -1,
                         cdTarget := -1 } =
      ({ initState with phase := Phase.awaitingCeleb, target := -1,
                        action := some CAction.reset, cdRemaining := -1,
                        cdTarget := -1 }, []) :=
  (post_celebration_wait_handles_start_only 7
    { initState with phase := Phase.awaitingCeleb, target := -1,
                     action := some CAction.reset, cdRemaining := -1,
                     cdTarget := -1 }).2.1 rfl rfl

/-- A counting tick with no pending stop or reset always publishes
remaining as target minus now, leaves target, action and seconds
untouched, stays in the counting loop while remaining is positive, and
moves to the post-celebration wait loop or to the halted state once
remaining is non-positive. -/
theorem tick_fallthrough (once : Bool) (t : ℚ) (s : LoopState)
    (hph : s.phase = Phase.counting)
    (h1 : s.action ≠ some CAction.stop)
    (h2 : s.action ≠ some CAction.reset) :
    (tick once t s).1.cdRemaining = s.target - t ∧
    (tick once t s).1.target = s.target ∧
    (tick once t s).1.action = s.action ∧
    (tick once t s).1.seconds = s.seconds ∧
    (0 < s.target - t → (tick once t s).1.phase = Phase.counting) ∧
    (s.target - t ≤ 0 → (tick once t s).1.phase = Phase.awaitingCeleb ∨
      (tick once t s).1.phase = Phase.halted) := by
  obtain ⟨ph, tg, ls, ac, sec, run, cr, ct⟩ := s
  subst hph
  rcases ac with _ | a
  · simp only [tick]
    split_ifs
    all_goals refine ⟨rfl, rfl, rfl, rfl, ?_, ?_⟩
    all_goals intro h
    all_goals
      first
        | rfl
        | exact Or.inl rfl
        | exact Or.inr rfl
        | (exfalso; linarith)
  · cases a
    · simp only [tick]
      split_ifs
      all_goals refine ⟨rfl, rfl, rfl, rfl, ?_, ?_⟩
      all_goals intro h
      all_goals
        first
          | rfl
          | exact Or.inl rfl
          | exact Or.inr rfl
          | (exfalso; linarith)
    · exact absurd rfl h1
    · exact absurd rfl h2

/-- A tick in the post-celebration wait loop with no pending start
action does nothing. -/
theorem tick_awaitingCeleb_skip (once : Bool) (t : ℚ) (s : LoopState)
    (hph : s.phase = Phase.awaitingCeleb)
    (ha : s.action ≠ some CAction.start) :
    tick once t s = (s, []) := by
  obtain ⟨ph, tg, ls, ac, sec, run, cr, ct⟩ := s
  subst hph
  rcases ac with _ | a
  · rfl
  · cases a
    · exact absurd rfl ha
    · rfl
    · rfl

/-- A tick in the halted state does nothing. -/
theorem tick_halted_skip (once : Bool) (t : ℚ) (s : LoopState)
    (hph : s.phase = Phase.halted) : tick once t s = (s, []) := by
  obtain ⟨ph, tg, ls, ac, sec, run, cr, ct⟩ := s
  subst hph
  rfl

/-- C4: across two consecutive ticks of a counting state between which
no start and no reset action is consumed, the remaining value published
to countdown_state does not increase: target is unchanged by the first
tick and remaining is recomputed as target minus the current time. -/
theorem published_remaining_monotone (once : Bool) (s : LoopState)
    (t1 t2 : ℚ)
    (hph : s.phase = Phase.counting)
    (h1 : s.action ≠ some CAction.stop)
    (h2 : s.action ≠ some CAction.reset)
    (hle : t1 ≤ t2)
    (hc1 : consumedAction (tick once t1 s).1 ≠ some CAction.start)
    (hc2 : consumedAction (tick once t1 s).1 ≠ some CAction.reset) :
    (tick once t2 (tick once t1 s).1).1.cdRemaining ≤
      (tick once t1 s).1.cdRemaining := by
  have hf1 := tick_fallthrough once t1 s hph h1 h2
  by_cases hr : 0 < s.target - t1
  · have hph1 := hf1.2.2.2.2.1 hr
    have h1' : (tick once t1 s).1.action ≠ some CAction.stop := by
      rw [hf1.2.2.1]; exact h1
    have h2' : (tick once t1 s).1.action ≠ some CAction.reset := by
      rw [hf1.2.2.1]; exact h2
    have hf2 := tick_fallthrough once t2 (tick once t1 s).1 hph1 h1' h2'
    rw [hf2.1, hf1.1, hf1.2.1]
    linarith
  · rcases hf1.2.2.2.2.2 (by linarith) with hcA | hcH
    · have ha1 : (tick once t1 s).1.action ≠ some CAction.start := by
        intro hstart
        apply hc1
        simp [consumedAction, hcA, hstart]
      rw [tick_awaitingCeleb_skip once t2 _ hcA ha1]
    · rw [tick_halted_skip once t2 _ hcH]

/-- Witness for published_remaining_monotone: a 20-second countdown
started at time 0 and ticked at times 5 and 7 publishes 13 after
publishing 15. -/
theorem published_remaining_monotone_witness :
    (tick false 7 (tick false 5 (tick false 0 (envStart 20 initState)).1).1).1.cdRemaining ≤
      (tick false 5 (tick false 0 (envStart 20 initState)).1).1.cdRemaining := by
  refine published_remaining_monotone false
    (tick false 0 (envStart 20 initState)).1 5 7 ?_ ?_ ?_ (by norm_num) ?_ ?_ <;>
    norm_num [tick, envStart, initState, startConsume, consumedAction] <;>
    decide

/-- Floor division of a rational by a positive natural agrees with
integer division of its floor, matching Python's floor-division. -/
theorem floor_div_natCast (r : ℚ) (d : ℕ) (hd : 0 < d) :
    ⌊r / (d : ℚ)⌋ = ⌊r⌋ / (d : ℤ) := by
  have hd0 : (d : ℤ) ≠ 0 := by exact_mod_cast hd.ne'
  have hdZ : (0 : ℤ) < (d : ℤ) := by exact_mod_cast hd
  have hdQ : (0 : ℚ) < (d : ℚ) := by exact_mod_cast hd
  have hmod := Int.emod_nonneg ⌊r⌋ hd0
  have hmodlt := Int.emod_lt_of_pos ⌊r⌋ hdZ
  have key := Int.ediv_add_emod ⌊r⌋ (d : ℤ)
  have keyQ : (d : ℚ) * ((⌊r⌋ / (d : ℤ) : ℤ) : ℚ) +
      ((⌊r⌋ % (d : ℤ) : ℤ) : ℚ) = (⌊r⌋ : ℚ) := by exact_mod_cast key
  have hmodQ : (0 : ℚ) ≤ ((⌊r⌋ % (d : ℤ) : ℤ) : ℚ) := by exact_mod_cast hmod
  have hmodltQ : ((⌊r⌋ % (d : ℤ) : ℤ) : ℚ) + 1 ≤ (d : ℚ) := by
    exact_mod_cast Int.add_one_le_iff.mpr hmodlt
  have hfle : (↑⌊r⌋ : ℚ) ≤ r := Int.floor_le r
  have hflt : r < ⌊r⌋ + 1 := Int.lt_floor_add_one r
  rw [Int.floor_eq_iff]
  constructor
  · rw [le_div_iff₀ hdQ]
    linarith
  · rw [div_lt_iff₀ hdQ]
    linarith

/-- The floor of the Python modulo of a rational by a positive natural
is the Euclidean remainder of its floor. -/
theorem floor_pyMod (r : ℚ) (d : ℕ) (hd : 0 < d) :
    ⌊pyMod r (d : ℚ)⌋ = ⌊r⌋ % (d : ℤ) := by
  have h1 : pyMod r (d : ℚ) = r - (((d : ℤ) * (⌊r⌋ / (d : ℤ)) : ℤ) : ℚ) := by
    unfold pyMod
    rw [floor_div_natCast r d hd]
    push_cast
    ring
  rw [h1, Int.floor_sub_int, Int.emod_def]

/-- C10: for non-negative published remaining r the formatted field of
the /countdown response is the zero-padded decomposition of the floor
of r into hours, minutes and seconds; for negative r the hours
component is negative (Python floor division) while the minute and
second components wrap, so remaining -5 renders as -1:59:55 instead of
being clamped to zero. -/
theorem countdown_formatted_decomposition :
    (∀ r : ℚ, 0 ≤ r →
      hoursOf r = ⌊r⌋ / 3600 ∧
      minutesOf r = ⌊r⌋ % 3600 / 60 ∧
      secondsOf r = ⌊r⌋ % 60 ∧
      formattedOf r =
        pad2 (⌊r⌋ / 3600) ++ ":" ++ pad2 (⌊r⌋ % 3600 / 60) ++ ":" ++
          pad2 (⌊r⌋ % 60)) ∧
    (∀ r : ℚ, r < 0 → hoursOf r < 0) ∧
    formattedOf (-5) = "-1:59:55" := by
  have hh : ∀ r : ℚ, hoursOf r = ⌊r⌋ / 3600 := fun r => by
    have := floor_div_natCast r 3600 (by norm_num)
    unfold hoursOf
    exact_mod_cast this
  have hm : ∀ r : ℚ, minutesOf r = ⌊r⌋ % 3600 / 60 := fun r => by
    have h1 := floor_pyMod r 3600 (by norm_num)
    have h2 := floor_div_natCast (pyMod r ((3600 : ℕ) : ℚ)) 60 (by norm_num)
    unfold minutesOf
    have h3 : pyMod r (3600 : ℚ) = pyMod r ((3600 : ℕ) : ℚ) := by norm_num
    have h4 : (60 : ℚ) = ((60 : ℕ) : ℚ) := by norm_num
    rw [h3, h4, h2, h1]
    norm_num
  have hs : ∀ r : ℚ, secondsOf r = ⌊r⌋ % 60 := fun r => by
    have h1 := floor_pyMod r 60 (by norm_num)
    unfold secondsOf
    exact_mod_cast h1
  refine ⟨fun r _ => ⟨hh r, hm r, hs r, ?_⟩, fun r hr => ?_, ?_⟩
  · rw [formattedOf, hh r, hm r, hs r]
  · rw [hoursOf, Int.floor_lt]
    exact_mod_cast div_neg_of_neg_of_pos hr (by norm_num : (0 : ℚ) < 3600)
  · have h1 : hoursOf (-5 : ℚ) = -1 := by norm_num [hoursOf]
    have h2 : minutesOf (-5 : ℚ) = 59 := by norm_num [minutesOf, pyMod]
    have h3 : secondsOf (-5 : ℚ) = 55 := by norm_num [secondsOf, pyMod]
    rw [formattedOf, h1, h2, h3]
    decide

/-- Witness for countdown_formatted_decomposition: remaining 3661
renders as 01:01:01. -/
theorem countdown_formatted_decomposition_witness :
    (0 : ℚ) ≤ 3661 ∧ formattedOf 3661 = "01:01:01" := by
  refine ⟨by norm_num, ?_⟩
  have h := (countdown_formatted_decomposition.1 3661 (by norm_num)).2.2.2
  rw [h, show ⌊(3661 : ℚ)⌋ = 3661 by norm_num]
  decide

/-- The celebration while loop never lets a pose exception escape: every
beat and every big move sits inside its own try block. -/
theorem danceLoop_ok (sink : PoseSink) (b k : ℕ) :
    (danceLoop sink b k).2 = Except.ok () := by
  induction k generalizing b with
  | zero => rfl
  | succ k ih =>
    by_cases h5 : (b + 1) % 5 = 0 <;>
      simp [danceLoop, h5, seqPose, caught, ih]

/-- C8 counterexample: with a pose sink that fails on every command,
the final-minute routine and the celebration routine both propagate the
exception instead of catching it: the goto_target calls of
_final_minute and the victory pose of _celebrate are not wrapped in any
try block, so a pose-command failure there escapes to the run loop. -/
theorem choreography_failure_propagates :
    (finalMinuteTrace (fun _ => Except.error ()) 30).2 = Except.error () ∧
    (celebrateTrace (fun _ => Except.error ()) 2).2 = Except.error () := by
  exact ⟨rfl, rfl⟩

/-- C8 amended: pose-command failures inside the try-wrapped blocks of
_celebrate (the spin iterations, the per-beat dance moves and the big
moves) are contained, so whenever the two unguarded victory-pose
commands succeed the whole celebration returns normally whatever else
fails; _final_minute in contrast has no try block at all, so it returns
normally exactly when both of its pose commands succeed. -/
theorem choreography_guard_structure (sink : PoseSink) (k : ℕ) (n : ℤ) :
    ((∀ c ∈ victoryCmds, sink c = Except.ok ()) →
      (celebrateTrace sink k).2 = Except.ok ()) ∧
    ((finalMinuteTrace sink n).2 = Except.ok () ↔
      ∀ c ∈ finalMinuteCmds n, sink c = Except.ok ()) := by
  constructor
  · intro hv
    have h1 : sink (antCmd 0.6 0.6 0.2) = Except.ok () :=
      hv _ (by simp [victoryCmds])
    have h2 : sink (headCmd 0 (-45) 0 0.3) = Except.ok () :=
      hv _ (by simp [victoryCmds])
    simp [celebrateTrace, celebrateSpins, seqPose, caught, victoryCmds,
      runSeq, h1, h2, danceLoop_ok]
  · simp only [finalMinuteTrace, finalMinuteCmds]
    rcases hA : sink (antCmd (-0.4 + (1 - (n : ℚ) / 60) * 0.8)
        (-0.4 + (1 - (n : ℚ) / 60) * 0.8) 0.5) with u | u <;>
      rcases hB : sink (headCmd 0 (-30 - (1 - (n : ℚ) / 60) * 15) 0 0.5)
        with v | v <;>
      cases u <;> cases v <;> simp [runSeq, hA, hB]

/-- Witness for choreography_guard_structure: with a sink that always
succeeds, a two-beat celebration returns normally. -/
theorem choreography_guard_structure_witness :
    (celebrateTrace (fun _ => Except.ok ()) 2).2 = Except.ok () :=
  (choreography_guard_structure (fun _ => Except.ok ()) 2 30).1
    (fun _ _ => rfl)

/-- A counting tick with no pending stop or reset whose remaining has
reached zero clears running (run-once mode off): the celebration branch
sets running to false before waiting for a new start. -/
theorem tick_celebrates_running (t : ℚ) (s : LoopState)
    (hph : s.phase = Phase.counting)
    (h1 : s.action ≠ some CAction.stop)
    (h2 : s.action ≠ some CAction.reset)
    (hr : s.target - t ≤ 0) :
    (tick false t s).1.running = false := by
  obtain ⟨ph, tg, ls, ac, sec, run, cr, ct⟩ := s
  subst hph
  rcases ac with _ | a
  · simp only [tick]
    rw [if_pos hr]
    rfl
  · cases a
    · simp only [tick]
      rw [if_pos hr]
      rfl
    · exact absurd rfl h1
    · exact absurd rfl h2

/-- C6 counterexample: the running flag is not a faithful mirror of
countdown activity.  Starting a 30-second countdown at time 0, writing
the reset endpoint, and ticking at time 1 consumes the reset: the loop
keeps counting toward the fresh target 31, yet running is false, so the
claimed equivalence fails in a reachable state. -/
theorem running_mirror_counterexample :
    ¬ (∀ (t : ℚ) (s : LoopState), Reachable false t s →
        (s.running = true ↔ s.phase = Phase.counting)) := by
  intro h
  have hreach : Reachable false 1
      (tick false 1 (envReset (tick false 0 (envStart 30 initState)).1)).1 :=
    Reachable.step 0 1 _
      (Reachable.ctrlReset 0 _
        (Reachable.step 0 0 _ (Reachable.ctrlStart 0 30 _ Reachable.init)
          le_rfl))
      (by norm_num)
  have heq :
      (tick false 1 (envReset (tick false 0 (envStart 30 initState)).1)).1 =
      { phase := Phase.counting, target := 31, lastSpoken := -1,
        action := none, seconds := some 30, running := false,
        cdRemaining := 0, cdTarget := 0 } := by
    norm_num [tick, envReset, envStart, initState, startConsume]
  have h2 := h 1 _ hreach
  rw [heq] at h2
  simp at h2

/-- C6 amended: in every reachable state (run-once mode off) the running
flag only ever holds while the loop is counting or while a start action
written by the control surface is still pending; the converse direction
of the claimed equivalence is false, because a reset consumed while
counting leaves the loop counting toward a fresh 30-second target with
running cleared (and the stop and reset endpoints themselves clear
running before the loop consumes their action). -/
theorem running_implies_active (t : ℚ) (s : LoopState)
    (hr : Reachable false t s) :
    s.running = true →
      s.phase = Phase.counting ∨ s.action = some CAction.start := by
  induction hr with
  | init => intro hrun; simp [initState] at hrun
  | ctrlStart t sec s hr ih => intro _; exact Or.inr rfl
  | ctrlStop t s hr ih => intro hrun; simp [envStop] at hrun
  | ctrlReset t s hr ih => intro hrun; simp [envReset] at hrun
  | step t t' s hr hle ih =>
    intro hrun
    obtain ⟨ph, tg, ls, ac, sec, run, cr, ct⟩ := s
    cases ph
    case awaitingStart =>
      rcases ac with _ | a
      · rcases ih hrun with h | h <;> simp_all
      · cases a
        · exact Or.inl rfl
        · rcases ih hrun with h | h <;> simp_all
        · simp [tick] at hrun
    case awaitingCeleb =>
      rcases ac with _ | a
      · rcases ih hrun with h | h <;> simp_all
      · cases a
        · exact Or.inl rfl
        · rcases ih hrun with h | h <;> simp_all
        · rcases ih hrun with h | h <;> simp_all
    case counting =>
      rcases ac with _ | a
      · by_cases hle0 : tg - t' ≤ 0
        · rw [tick_celebrates_running t' _ rfl (by simp) (by simp) hle0]
            at hrun
          exact absurd hrun (by simp)
        · exact Or.inl
            ((tick_fallthrough false t' _ rfl (by simp) (by simp)).2.2.2.2.1
              (by linarith))
      · cases a
        · by_cases hle0 : tg - t' ≤ 0
          · rw [tick_celebrates_running t' _ rfl (by simp) (by simp) hle0]
              at hrun
            exact absurd hrun (by simp)
          · exact Or.inl
              ((tick_fallthrough false t' _ rfl (by simp) (by simp)).2.2.2.2.1
                (by linarith))
        · simp [tick] at hrun
        · simp [tick] at hrun
    case halted =>
      rw [tick_halted_skip false t' _ rfl] at hrun ⊢
      rcases ih hrun with h | h
      · simp at h
      · exact Or.inr h

/-- Witness for running_implies_active at the state produced by
consuming a start written at time 0: running holds and the loop is
indeed counting. -/
theorem running_implies_active_witness :
    (tick false 0 (envStart 30 initState)).1.phase = Phase.counting ∨
      (tick false 0 (envStart 30 initState)).1.action =
        some CAction.start :=
  running_implies_active 0 _
    (Reachable.step 0 0 _ (Reachable.ctrlStart 0 30 _ Reachable.init)
      le_rfl)
    (by norm_num [tick, envStart, initState, startConsume])

/-- Shape of a counting tick with no pending action inside the final
ten seconds when the guard fires: the integer second is announced and
recorded in the last-spoken tracker. -/
theorem tick_counting_speak (once : Bool) (t : ℚ) (s : LoopState)
    (hph : s.phase = Phase.counting) (ha : s.action = none)
    (h0 : 0 < s.target - t) (h10 : s.target - t ≤ 10)
    (hg : 0 < ⌊s.target - t⌋) (hne : ⌊s.target - t⌋ ≠ s.lastSpoken) :
    tick once t s =
      ({ s with cdRemaining := s.target - t, cdTarget := s.target,
                lastSpoken := ⌊s.target - t⌋ },
       [Effect.finalTen ⌊s.target - t⌋]) := by
  obtain ⟨ph, tg, ls, ac, sec, run, cr, ct⟩ := s
  subst hph ha
  simp only [tick]
  rw [if_neg (by dsimp only at h0 ⊢; linarith), if_pos h10,
    if_pos ⟨hg, hne⟩]

/-- Shape of a counting tick with no pending action inside the final
ten seconds when the guard blocks (integer part not positive, or equal
to the last-spoken value): remaining is published and nothing else
happens. -/
theorem tick_counting_silent (once : Bool) (t : ℚ) (s : LoopState)
    (hph : s.phase = Phase.counting) (ha : s.action = none)
    (h0 : 0 < s.target - t) (h10 : s.target - t ≤ 10)
    (hng : ¬(0 < ⌊s.target - t⌋ ∧ ⌊s.target - t⌋ ≠ s.lastSpoken)) :
    tick once t s =
      ({ s with cdRemaining := s.target - t, cdTarget := s.target }, []) := by
  obtain ⟨ph, tg, ls, ac, sec, run, cr, ct⟩ := s
  subst hph ha
  simp only [tick]
  rw [if_neg (by dsimp only at h0 ⊢; linarith), if_pos h10, if_neg hng]

/-- Shape of a counting tick with no pending action in the final
minute: one final-minute pose with the integer remaining. -/
theorem tick_counting_minute (once : Bool) (t : ℚ) (s : LoopState)
    (hph : s.phase = Phase.counting) (ha : s.action = none)
    (h10 : 10 < s.target - t) (h60 : s.target - t ≤ 60) :
    tick once t s =
      ({ s with cdRemaining := s.target - t, cdTarget := s.target },
       [Effect.finalMinute ⌊s.target - t⌋]) := by
  obtain ⟨ph, tg, ls, ac, sec, run, cr, ct⟩ := s
  subst hph ha
  simp only [tick]
  rw [if_neg (by dsimp only at h10 ⊢; linarith),
    if_neg (by dsimp only at h10 ⊢; linarith), if_pos h60]

/-- Shape of a counting tick with no pending action more than a minute
out: the idle sway. -/
theorem tick_counting_idle (once : Bool) (t : ℚ) (s : LoopState)
    (hph : s.phase = Phase.counting) (ha : s.action = none)
    (h60 : 60 < s.target - t) :
    tick once t s =
      ({ s with cdRemaining := s.target - t, cdTarget := s.target },
       [Effect.idlePose]) := by
  obtain ⟨ph, tg, ls, ac, sec, run, cr, ct⟩ := s
  subst hph ha
  simp only [tick]
  rw [if_neg (by dsimp only at h60 ⊢; linarith),
    if_neg (by dsimp only at h60 ⊢; linarith),
    if_neg (by dsimp only at h60 ⊢; linarith)]

/-- Counting final-ten effects distributes over trace concatenation. -/
theorem countFT_append (n : ℤ) (l1 l2 : List Effect) :
    countFT n (l1 ++ l2) = countFT n l1 + countFT n l2 :=
  List.countP_append _ _ _

/-- A lone final-ten effect is counted once exactly at its own
number. -/
theorem countFT_single (n m : ℤ) :
    countFT n [Effect.finalTen m] = if m = n then 1 else 0 := by
  by_cases h : m = n <;> simp [countFT, List.countP_cons, h]

/-- A final-minute effect never counts as a final-ten announcement. -/
theorem countFT_minute (n m : ℤ) : countFT n [Effect.finalMinute m] = 0 := by
  simp [countFT, List.countP_cons]

/-- An idle-pose effect never counts as a final-ten announcement. -/
theorem countFT_idle (n : ℤ) : countFT n [Effect.idlePose] = 0 := by
  simp [countFT, List.countP_cons]

/-- The final-ten announcements issued by iterated counting ticks with
no pending action, all strictly before the target, are exactly the
numbers selected by the last-spoken guard recursion spokenSeq. -/
theorem runTicks_finalTen_count (once : Bool) (ts : List ℚ) (n : ℤ) :
    ∀ s : LoopState, s.phase = Phase.counting → s.action = none →
      (∀ u ∈ ts, 0 < s.target - u) →
      countFT n (runTicks once ts s).2 =
        (spokenSeq s.target s.lastSpoken ts).count n := by
  induction ts with
  | nil => intro s _ _ _; rfl
  | cons t ts ih =>
    intro s hph ha hpos
    have hpt : 0 < s.target - t := hpos t (by simp)
    have hpts : ∀ u ∈ ts, 0 < s.target - u := fun u hu =>
      hpos u (by simp [hu])
    by_cases h10 : s.target - t ≤ 10
    · by_cases hg : 0 < ⌊s.target - t⌋ ∧ ⌊s.target - t⌋ ≠ s.lastSpoken
      · have hstep := tick_counting_speak once t s hph ha hpt h10 hg.1 hg.2
        simp only [runTicks, hstep]
        rw [countFT_append, countFT_single,
          ih { s with
                cdRemaining := s.target - t, cdTarget := s.target,
                lastSpoken := ⌊s.target - t⌋ } hph ha hpts]
        dsimp only
        have hcnd : s.target - t ≤ 10 ∧ 0 < ⌊s.target - t⌋ ∧
            ⌊s.target - t⌋ ≠ s.lastSpoken := ⟨h10, hg.1, hg.2⟩
        rw [spokenSeq, if_pos hcnd, List.count_cons]
        by_cases hnm : ⌊s.target - t⌋ = n
        · simp [hnm, Nat.add_comm]
        · simp [hnm, Ne.symm hnm]
      · have hstep := tick_counting_silent once t s hph ha hpt h10 hg
        simp only [runTicks, hstep]
        rw [countFT_append,
          ih { s with
                cdRemaining := s.target - t, cdTarget := s.target }
            hph ha hpts]
        dsimp only
        rw [spokenSeq, if_neg (fun hc => hg ⟨hc.2.1, hc.2.2⟩)]
        simp [countFT]
    · by_cases h60 : s.target - t ≤ 60
      · have hstep := tick_counting_minute once t s hph ha (by linarith) h60
        simp only [runTicks, hstep]
        rw [countFT_append, countFT_minute,
          ih { s with
                cdRemaining := s.target - t, cdTarget := s.target }
            hph ha hpts]
        dsimp only
        rw [spokenSeq, if_neg (fun hc => h10 hc.1)]
        simp
      · have hstep := tick_counting_idle once t s hph ha (by linarith)
        simp only [runTicks, hstep]
        rw [countFT_append, countFT_idle,
          ih { s with
                cdRemaining := s.target - t, cdTarget := s.target }
            hph ha hpts]
        dsimp only
        rw [spokenSeq, if_neg (fun hc => h10 hc.1)]
        simp

/-- Counting property of the last-spoken guard recursion: along ticks
at non-decreasing times, all strictly before the target, a number n
between 1 and 10 is announced exactly once if some tick samples it
inside the final ten seconds and it is not blocked as the incoming
last-spoken value, and never otherwise. -/
theorem spokenSeq_count (T : ℚ) (n : ℤ) (hn1 : 1 ≤ n) :
    ∀ (ts : List ℚ) (L : ℤ), ts.Sorted (· ≤ ·) →
      (∀ u ∈ ts, 0 < T - u) →
      (L = -1 ∨ ∀ u ∈ ts, ⌊T - u⌋ ≤ L) →
      (spokenSeq T L ts).count n =
        if (∃ u ∈ ts, T - u ≤ 10 ∧ ⌊T - u⌋ = n) ∧ n ≠ L then 1 else 0 := by
  intro ts
  induction ts with
  | nil => intro L _ _ _; simp [spokenSeq]
  | cons t ts ih =>
    intro L hsort hpos hL
    obtain ⟨hhead, hsort'⟩ := List.sorted_cons.mp hsort
    have hpt : 0 < T - t := hpos t (by simp)
    have hpts : ∀ u ∈ ts, 0 < T - u := fun u hu => hpos u (by simp [hu])
    have hmono : ∀ u ∈ ts, ⌊T - u⌋ ≤ ⌊T - t⌋ := fun u hu =>
      Int.floor_mono (by have := hhead u hu; linarith)
    by_cases hcnd : T - t ≤ 10 ∧ 0 < ⌊T - t⌋ ∧ ⌊T - t⌋ ≠ L
    · rw [spokenSeq, if_pos hcnd, List.count_cons,
        ih ⌊T - t⌋ hsort' hpts (Or.inr hmono)]
      simp only [beq_iff_eq]
      by_cases hnm : n = ⌊T - t⌋
      · have hnL : n ≠ L := by rw [hnm]; exact hcnd.2.2
        have hex : ∃ u ∈ t :: ts, T - u ≤ 10 ∧ ⌊T - u⌋ = n :=
          ⟨t, by simp, hcnd.1, hnm.symm⟩
        have h1 : ¬((∃ u ∈ ts, T - u ≤ 10 ∧ ⌊T - u⌋ = n) ∧ n ≠ ⌊T - t⌋) :=
          fun hc => hc.2 hnm
        rw [if_neg h1, if_pos hnm.symm, if_pos ⟨hex, hnL⟩]
      · have hhne : ¬(⌊T - t⌋ = n) := fun h => hnm h.symm
        rw [if_neg hhne, Nat.add_zero]
        by_cases hex : ∃ u ∈ ts, T - u ≤ 10 ∧ ⌊T - u⌋ = n
        · have hnL : n ≠ L := by
            rcases hL with h | h
            · omega
            · obtain ⟨u, hu, _, hfu⟩ := hex
              have h1 : ⌊T - u⌋ ≤ ⌊T - t⌋ := hmono u hu
              have h2 : ⌊T - t⌋ ≤ L := h t (by simp)
              have h3 : ⌊T - t⌋ ≠ L := hcnd.2.2
              omega
          have hexc : ∃ u ∈ t :: ts, T - u ≤ 10 ∧ ⌊T - u⌋ = n := by
            obtain ⟨u, hu, h⟩ := hex
            exact ⟨u, by simp [hu], h⟩
          rw [if_pos ⟨hex, hnm⟩, if_pos ⟨hexc, hnL⟩]
        · have hno : ¬((∃ u ∈ t :: ts, T - u ≤ 10 ∧ ⌊T - u⌋ = n) ∧
              n ≠ L) := by
            rintro ⟨⟨u, hu, h1, h2⟩, hnl⟩
            rcases List.mem_cons.mp hu with rfl | hu'
            · exact hnm h2.symm
            · exact hex ⟨u, hu', h1, h2⟩
          rw [if_neg (fun hc => hex hc.1), if_neg hno]
    · rw [spokenSeq, if_neg hcnd]
      have hL' : L = -1 ∨ ∀ u ∈ ts, ⌊T - u⌋ ≤ L := by
        rcases hL with h | h
        · exact Or.inl h
        · exact Or.inr fun u hu => h u (by simp [hu])
      rw [ih L hsort' hpts hL']
      by_cases hhw : T - t ≤ 10 ∧ ⌊T - t⌋ = n
      · have h0 : 0 < ⌊T - t⌋ := by
          have := hhw.2
          omega
        have hml : ⌊T - t⌋ = L := by
          by_contra hne
          exact hcnd ⟨hhw.1, h0, hne⟩
        have hnL : n = L := by
          have := hhw.2
          omega
        rw [if_neg (fun hc => hc.2 hnL), if_neg (fun hc => hc.2 hnL)]
      · have hiff : (∃ u ∈ t :: ts, T - u ≤ 10 ∧ ⌊T - u⌋ = n) ↔
            ∃ u ∈ ts, T - u ≤ 10 ∧ ⌊T - u⌋ = n := by
          constructor
          · rintro ⟨u, hu, h1, h2⟩
            rcases List.mem_cons.mp hu with rfl | hu'
            · exact absurd ⟨h1, h2⟩ hhw
            · exact ⟨u, hu', h1, h2⟩
          · rintro ⟨u, hu, h⟩
            exact ⟨u, by simp [hu], h⟩
        by_cases hex : ∃ u ∈ ts, T - u ≤ 10 ∧ ⌊T - u⌋ = n
        · by_cases hnl : n = L
          · rw [if_neg (fun hc => hc.2 hnl), if_neg (fun hc => hc.2 hnl)]
          · rw [if_pos ⟨hex, hnl⟩, if_pos ⟨hiff.mpr hex, hnl⟩]
        · rw [if_neg (fun hc => hex hc.1),
            if_neg (fun hc => hex (hiff.mp hc.1))]

/-- C1: starting a countdown by consuming a start action clears the
last-spoken tracker, and along any subsequent run of ticks at
non-decreasing times that all fall strictly before the target, each
integer second n between 1 and 10 is announced by a final-ten effect
exactly once if some tick samples it inside the final ten seconds and
never otherwise — in particular at most once even when consecutive
ticks sample the same integer second repeatedly. -/
theorem final_ten_exactly_once (once : Bool) (s : LoopState) (t0 : ℚ)
    (ts : List ℚ) (n : ℤ)
    (hph : s.phase = Phase.awaitingStart ∨ s.phase = Phase.awaitingCeleb)
    (ha : s.action = some CAction.start)
    (hsort : ts.Sorted (· ≤ ·))
    (hpos : ∀ u ∈ ts, 0 < t0 + s.seconds.getD 30 - u)
    (hn1 : 1 ≤ n) (hn10 : n ≤ 10) :
    (tick once t0 s).1.lastSpoken = -1 ∧
    countFT n (runTicks once ts (tick once t0 s).1).2 =
      if ∃ u ∈ ts, t0 + s.seconds.getD 30 - u ≤ 10 ∧
          ⌊t0 + s.seconds.getD 30 - u⌋ = n then 1 else 0 := by
  have hstart : tick once t0 s = (startConsume t0 s, []) := by
    obtain ⟨ph, tg, ls, ac, sec, run, cr, ct⟩ := s
    rcases hph with h | h <;> (subst h; subst ha; rfl)
  rw [hstart]
  refine ⟨rfl, ?_⟩
  have hbr := runTicks_finalTen_count once ts n (startConsume t0 s)
    rfl rfl hpos
  have hsc := spokenSeq_count (t0 + s.seconds.getD 30) n hn1 ts (-1)
    hsort hpos (Or.inl rfl)
  have hne : n ≠ -1 := by omega
  rw [show ((startConsume t0 s, ([] : List Effect)).1) = startConsume t0 s
    from rfl]
  rw [hbr]
  rw [show (spokenSeq (startConsume t0 s).target
      (startConsume t0 s).lastSpoken ts) =
    spokenSeq (t0 + s.seconds.getD 30) (-1) ts from rfl]
  rw [hsc]
  simp [hne]

/-- Witness for final_ten_exactly_once: a 12-second countdown started
at time 0 and ticked at times 3, 3.5, 3.8 and 11.5 samples the second
9 once at time 3, then 8 twice and finally 0; the number 9 is announced
exactly once. -/
theorem final_ten_exactly_once_witness :
    countFT 9 (runTicks false [3, 3.5, 3.8, 11.5]
      (tick false 0 { initState with
        action := some CAction.start, seconds := some 12 }).1).2 = 1 := by
  have hsort : ([(3 : ℚ), 3.5, 3.8, 11.5]).Sorted (· ≤ ·) := by
    norm_num [List.sorted_cons]
  have hpos : ∀ u ∈ [(3 : ℚ), 3.5, 3.8, 11.5],
      0 < 0 + ({ initState with
        action := some CAction.start,
        seconds := some 12 } : LoopState).seconds.getD 30 - u := by
    norm_num [initState]
  have h := final_ten_exactly_once false
    { initState with action := some CAction.start, seconds := some 12 }
    0 [3, 3.5, 3.8, 11.5] 9 (Or.inl rfl) rfl hsort hpos
    (by norm_num) (by norm_num)
  rw [h.2]
  have hex : ∃ u ∈ [(3 : ℚ), 3.5, 3.8, 11.5],
      0 + ({ initState with
        action := some CAction.start,
        seconds := some 12 } : LoopState).seconds.getD 30 - u ≤ 10 ∧
      ⌊0 + ({ initState with
        action := some CAction.start,
        seconds := some 12 } : LoopState).seconds.getD 30 - u⌋ = 9 :=
    ⟨3, by simp, by norm_num [initState], by norm_num [initState]⟩
  rw [if_pos hex]

end ReachyMiniCountdown
